import Mathlib

/-!
Shallow embedding of the capora-elf decoding core (src/encoding.rs, src/class.rs,
src/elf_ident.rs, src/elf_header.rs, src/elf_program_header.rs, src/lib.rs) and
proofs about its parsing layers.

Modelling conventions:
* A byte buffer is a `List Nat`; genuine buffers have every entry `< 256`.
* `usize`/`u64` arithmetic that can overflow in Rust is modelled with explicit
  checks against `2 ^ 64` (the native address width is taken to be 64 bits, as
  in the crate's intended targets).
* Fallible Rust functions returning `Result` become `Except`; functions that
  can additionally panic (the source contains reachable `todo!()` calls and an
  unguarded index) return `PResult`, whose third constructor `panic` marks an
  abort.
-/

namespace CaporaElf

/-- Outcome of a Rust function that may return a value, return an error, or
panic (`todo!()` / out-of-bounds index). -/
inductive PResult (ε α : Type) where
  | ok (a : α)
  | error (e : ε)
  | panic
deriving DecidableEq

/-- True exactly on the `ok` outcome. -/
def PResult.isOk {ε α : Type} : PResult ε α → Bool
  | .ok _ => true
  | _ => false

/-- The error payload of an `Except`, if any. -/
def exceptErr {ε α : Type} : Except ε α → Option ε
  | .error e => some e
  | .ok _ => none

/-- The `ok` payload of an `Except` over `Nat`, with a default for the error
case.  Used to embed source sites that consume a read's result directly. -/
def exceptD {ε : Type} (d : Nat) : Except ε Nat → Nat
  | .ok v => v
  | .error _ => d

/-! ## src/encoding.rs -/

/-- `ParseIntegerError` from src/encoding.rs. -/
inductive ParseIntegerError where
  | arithmeticError
  | boundsError (read_offset read_size data_size : Nat)
deriving DecidableEq

/-- `UnsupportedEncodingError` from src/encoding.rs: carries the raw ident byte. -/
structure UnsupportedEncodingError where
  val : Nat
deriving DecidableEq

/-- The `Encoding` enum from src/encoding.rs. -/
inductive Encoding where
  | twosComplementLittleEndian
  | twosComplementBigEndian
deriving DecidableEq

/-- `uN::from_le_bytes`: little-endian value of a byte list. -/
def fromLeBytes : List Nat → Nat
  | [] => 0
  | b :: bs => b + 256 * fromLeBytes bs

/-- `uN::from_be_bytes`: big-endian value of a byte list. -/
def fromBeBytes (bs : List Nat) : Nat :=
  bs.foldl (fun acc b => 256 * acc + b) 0

/-- `data[offset..]` followed by `first_chunk::<w>`: the `w` bytes at `offset`. -/
def readExact (offset w : Nat) (data : List Nat) : List Nat :=
  (data.drop offset).take w

/-- `usize::checked_sub` as used by the decoders: `len.checked_sub(offset)`. -/
def checkedSub (a b : Nat) : Option Nat :=
  if b ≤ a then some (a - b) else none

/-- Common body of `LittleEndian::parse_u8_at` / `parse_u16_at` / `parse_u32_at`
/ `parse_u64_at` (src/encoding.rs lines 147-260); the six methods differ only
in the width `w` and the final `from_le_bytes` call. -/
def LittleEndian.parse_at (w offset : Nat) (data : List Nat) :
    Except ParseIntegerError Nat :=
  match checkedSub data.length offset with
  | none => .error .arithmeticError
  | some remaining_space =>
    if remaining_space < w then
      .error (.boundsError offset w data.length)
    else
      .ok (fromLeBytes (readExact offset w data))

def LittleEndian.parse_u8_at (offset : Nat) (data : List Nat) :
    Except ParseIntegerError Nat :=
  LittleEndian.parse_at 1 offset data

def LittleEndian.parse_u16_at (offset : Nat) (data : List Nat) :
    Except ParseIntegerError Nat :=
  LittleEndian.parse_at 2 offset data

def LittleEndian.parse_u32_at (offset : Nat) (data : List Nat) :
    Except ParseIntegerError Nat :=
  LittleEndian.parse_at 4 offset data

def LittleEndian.parse_u64_at (offset : Nat) (data : List Nat) :
    Except ParseIntegerError Nat :=
  LittleEndian.parse_at 8 offset data

/-- Two's-complement reinterpretation of an unsigned `bits`-bit value, as done
by `iN::from_le_bytes` relative to `uN::from_le_bytes`. -/
def toSigned (bits n : Nat) : Int :=
  if n < 2 ^ (bits - 1) then (n : Int) else (n : Int) - 2 ^ bits

def LittleEndian.parse_i32_at (offset : Nat) (data : List Nat) :
    Except ParseIntegerError Int :=
  (LittleEndian.parse_at 4 offset data).map (toSigned 32)

def LittleEndian.parse_i64_at (offset : Nat) (data : List Nat) :
    Except ParseIntegerError Int :=
  (LittleEndian.parse_at 8 offset data).map (toSigned 64)

/-- Common body of the `BigEndian` read methods (src/encoding.rs lines
279-391); identical to the little-endian one except for `from_be_bytes`. -/
def BigEndian.parse_at (w offset : Nat) (data : List Nat) :
    Except ParseIntegerError Nat :=
  match checkedSub data.length offset with
  | none => .error .arithmeticError
  | some remaining_space =>
    if remaining_space < w then
      .error (.boundsError offset w data.length)
    else
      .ok (fromBeBytes (readExact offset w data))

def BigEndian.parse_u8_at (offset : Nat) (data : List Nat) :
    Except ParseIntegerError Nat :=
  BigEndian.parse_at 1 offset data

def BigEndian.parse_u16_at (offset : Nat) (data : List Nat) :
    Except ParseIntegerError Nat :=
  BigEndian.parse_at 2 offset data

def BigEndian.parse_u32_at (offset : Nat) (data : List Nat) :
    Except ParseIntegerError Nat :=
  BigEndian.parse_at 4 offset data

def BigEndian.parse_u64_at (offset : Nat) (data : List Nat) :
    Except ParseIntegerError Nat :=
  BigEndian.parse_at 8 offset data

def BigEndian.parse_i32_at (offset : Nat) (data : List Nat) :
    Except ParseIntegerError Int :=
  (BigEndian.parse_at 4 offset data).map (toSigned 32)

def BigEndian.parse_i64_at (offset : Nat) (data : List Nat) :
    Except ParseIntegerError Int :=
  (BigEndian.parse_at 8 offset data).map (toSigned 64)

/-- `LittleEndian::from_elf_data`: accepts only encoding byte 1. -/
def LittleEndian.from_elf_data (b : Nat) : Except UnsupportedEncodingError Unit :=
  if b ≠ 1 then .error ⟨b⟩ else .ok ()

/-- `BigEndian::from_elf_data`: accepts only encoding byte 2. -/
def BigEndian.from_elf_data (b : Nat) : Except UnsupportedEncodingError Unit :=
  if b ≠ 2 then .error ⟨b⟩ else .ok ()

/-- `AnyEncoding::from_elf_data`: the source matches on the raw byte with
constant patterns `LITTLE_ENDIAN_TWOS` (1) and `BIG_ENDIAN_TWOS` (2). -/
def AnyEncoding.from_elf_data (b : Nat) : Except UnsupportedEncodingError Encoding :=
  if b = 1 then .ok .twosComplementLittleEndian
  else if b = 2 then .ok .twosComplementBigEndian
  else .error ⟨b⟩

/-- The `AnyEncoding` read methods dispatch on the stored `Encoding`
(src/encoding.rs lines 411-451). -/
def AnyEncoding.parse_at (e : Encoding) (w offset : Nat) (data : List Nat) :
    Except ParseIntegerError Nat :=
  match e with
  | .twosComplementLittleEndian => LittleEndian.parse_at w offset data
  | .twosComplementBigEndian => BigEndian.parse_at w offset data

def AnyEncoding.parse_i32_at (e : Encoding) (offset : Nat) (data : List Nat) :
    Except ParseIntegerError Int :=
  match e with
  | .twosComplementLittleEndian => LittleEndian.parse_i32_at offset data
  | .twosComplementBigEndian => BigEndian.parse_i32_at offset data

def AnyEncoding.parse_i64_at (e : Encoding) (offset : Nat) (data : List Nat) :
    Except ParseIntegerError Int :=
  match e with
  | .twosComplementLittleEndian => LittleEndian.parse_i64_at offset data
  | .twosComplementBigEndian => BigEndian.parse_i64_at offset data

/-! ## src/class.rs -/

/-- The `Class` enum from src/class.rs. -/
inductive Class where
  | class32
  | class64
deriving DecidableEq

/-- `UnsupportedClassError` from src/class.rs: carries the raw ident byte. -/
structure UnsupportedClassError where
  val : Nat
deriving DecidableEq

/-- `Class32::from_elf_class`: accepts only class byte 1. -/
def Class32.from_elf_class (b : Nat) : Except UnsupportedClassError Unit :=
  if b ≠ 1 then .error ⟨b⟩ else .ok ()

/-- `Class64::from_elf_class`: accepts only class byte 2. -/
def Class64.from_elf_class (b : Nat) : Except UnsupportedClassError Unit :=
  if b ≠ 2 then .error ⟨b⟩ else .ok ()

/-- `AnyClass::from_elf_class`: the source matches on the raw byte with the
constant patterns `CLASS32` (1) and `CLASS64` (2). -/
def AnyClass.from_elf_class (b : Nat) : Except UnsupportedClassError Class :=
  if b = 1 then .ok .class32
  else if b = 2 then .ok .class64
  else .error ⟨b⟩

/-- The `ClassParse` trait: a strategy type `C` with its resolver and its
`into_class` view. -/
structure ClassParse (C : Type) where
  from_elf_class : Nat → Except UnsupportedClassError C
  into_class : C → Class

/-- The `ClassParse` impl for `AnyClass` (the stored value is the `Class`). -/
def anyClassParse : ClassParse Class :=
  ⟨AnyClass.from_elf_class, fun c => c⟩

/-- The `ClassParse` impl for the zero-sized `Class32`. -/
def class32Parse : ClassParse Unit :=
  ⟨Class32.from_elf_class, fun _ => Class.class32⟩

/-- The `ClassParse` impl for the zero-sized `Class64`. -/
def class64Parse : ClassParse Unit :=
  ⟨Class64.from_elf_class, fun _ => Class.class64⟩

/-- The `EncodingParse` trait: a strategy type `E` with its resolver and its
width-indexed unsigned read (the six trait methods share one body per impl,
see `LittleEndian.parse_at`). -/
structure EncodingParse (E : Type) where
  from_elf_data : Nat → Except UnsupportedEncodingError E
  parse_at : E → Nat → Nat → List Nat → Except ParseIntegerError Nat

/-- The `EncodingParse` impl for the zero-sized `LittleEndian`. -/
def littleEndianParse : EncodingParse Unit :=
  ⟨LittleEndian.from_elf_data, fun _ => LittleEndian.parse_at⟩

/-- The `EncodingParse` impl for the zero-sized `BigEndian`. -/
def bigEndianParse : EncodingParse Unit :=
  ⟨BigEndian.from_elf_data, fun _ => BigEndian.parse_at⟩

/-- The `EncodingParse` impl for `AnyEncoding` (the stored value is the
`Encoding`). -/
def anyEncodingParse : EncodingParse Encoding :=
  ⟨AnyEncoding.from_elf_data, AnyEncoding.parse_at⟩

/-! ## src/elf_ident.rs

Layout of the raw 16-byte ident block (src/raw/elf_ident.rs, `repr(C)`):
magic at 0..4, class at 4, data at 5, header_version at 6, os_abi at 7,
abi_version at 8, padding at 9..16. -/

/-- `ElfIdent::MAGIC_BYTES`: `[0x7F, b'E', b'L', b'F']`. -/
def MAGIC_BYTES : List Nat := [0x7F, 0x45, 0x4C, 0x46]

/-- The `ElfIdent` view struct from src/elf_ident.rs: a borrowed slice plus
the resolved class and encoding strategy values. -/
structure ElfIdent (C E : Type) where
  slice : List Nat
  cls : C
  encoding : E
deriving DecidableEq

/-- `ParseElfIdentError` from src/elf_ident.rs. -/
inductive ParseElfIdentError where
  | fileTooSmall
  | invalidMagicBytes
  | unsupportedClassError (e : UnsupportedClassError)
  | unsupportedEncodingError (e : UnsupportedEncodingError)
  | unsupportedElfHeaderVersion
  | nonZeroPadding
deriving DecidableEq

/-- `ElfIdent::parse` (src/elf_ident.rs lines 23-52).  The header-version byte
is read by direct indexing (`file[6]`); every index is guarded by the initial
16-byte length check, so the `getD` defaults are never exercised. -/
def ElfIdent.parse {C E : Type} (cp : ClassParse C) (ep : EncodingParse E)
    (file : List Nat) : Except ParseElfIdentError (ElfIdent C E) :=
  if file.length < 16 then .error .fileTooSmall
  else if file.take 4 ≠ MAGIC_BYTES then .error .invalidMagicBytes
  else
    match cp.from_elf_class (file.getD 4 0) with
    | .error e => .error (.unsupportedClassError e)
    | .ok c =>
      match ep.from_elf_data (file.getD 5 0) with
      | .error e => .error (.unsupportedEncodingError e)
      | .ok enc =>
        if file.getD 6 0 ≠ 1 then .error .unsupportedElfHeaderVersion
        else if ((file.drop 9).take 7).any (fun v => v ≠ 0) then
          .error .nonZeroPadding
        else .ok ⟨file, c, enc⟩

/-! ## src/elf_header.rs

Field offsets of `Elf64Header` (src/raw/elf_header.rs, `repr(C)`): ident at
0..16, type at 16, machine at 18, object_file_version at 20, entry at 24,
program_header_offset at 32, section_header_offset at 40, flags at 48,
elf_header_size at 52, program_header_entry_size at 54, program_header_count
at 56, section_header_entry_size at 58, section_header_count at 60,
section_header_string_table_index at 62; total size 64.  `Elf64ProgramHeader`
is 56 bytes and `Elf64SectionHeader` is 64 bytes.

For `Elf32Header`: type at 16, machine at 18, object_file_version at 20,
entry at 24, program_header_offset at 28, section_header_offset at 32, flags
at 36, elf_header_size at 40, program_header_entry_size at 42,
program_header_count at 44, section_header_entry_size at 46,
section_header_count at 48, section_header_string_table_index at 50. -/

/-- The `ElfHeader` view struct from src/elf_header.rs. -/
structure ElfHeader (C E : Type) where
  slice : List Nat
  cls : C
  encoding : E
deriving DecidableEq

/-- `ParseElfHeaderError` from src/elf_header.rs.  Note that it has no
arithmetic-overflow and no bounds variant. -/
inductive ParseElfHeaderError where
  | parseElfIdentError (e : ParseElfIdentError)
  | fileTooSmall
  | unsupportedElfFileVersion
  | invalidElfHeaderSize
  | invalidProgramHeaderSize
  | invalidSectionHeaderSize
deriving DecidableEq

/-- `ElfHeader::parse` (src/elf_header.rs lines 28-74).  The `Class32` arm of
the match is `todo!()` in the source, which aborts: modelled as `.panic`.  The
source consumes each read's result directly as an integer; with the 64-byte
length check already passed every read (offsets 20+4, 52+2, 54+2, 58+2) is in
bounds, so the `exceptD` default is never exercised. -/
def ElfHeader.parse {C E : Type} (cp : ClassParse C) (ep : EncodingParse E)
    (file : List Nat) : PResult ParseElfHeaderError (ElfHeader C E) :=
  match ElfIdent.parse cp ep file with
  | .error e => .error (.parseElfIdentError e)
  | .ok elf_ident =>
    match cp.into_class elf_ident.cls with
    | .class32 => .panic
    | .class64 =>
      if file.length < 64 then .error .fileTooSmall
      else if exceptD 0 (ep.parse_at elf_ident.encoding 4 20 file) ≠ 1 then
        .error .unsupportedElfFileVersion
      else if exceptD 0 (ep.parse_at elf_ident.encoding 2 52 file) < 64 then
        .error .invalidElfHeaderSize
      else if exceptD 0 (ep.parse_at elf_ident.encoding 2 54 file) < 56 then
        .error .invalidProgramHeaderSize
      else if exceptD 0 (ep.parse_at elf_ident.encoding 2 58 file) < 64 then
        .error .invalidSectionHeaderSize
      else .ok ⟨file, elf_ident.cls, elf_ident.encoding⟩

/-- `ElfHeader::program_header_offset`: a `u32` at offset 28 for class 32
(widened), a `u64` at offset 32 for class 64. -/
def ElfHeader.program_header_offset {C E : Type} (cp : ClassParse C)
    (ep : EncodingParse E) (h : ElfHeader C E) : Nat :=
  match cp.into_class h.cls with
  | .class32 => exceptD 0 (ep.parse_at h.encoding 4 28 h.slice)
  | .class64 => exceptD 0 (ep.parse_at h.encoding 8 32 h.slice)

/-- `ElfHeader::program_header_entry_size`: a `u16` at offset 42 (class 32)
or 54 (class 64). -/
def ElfHeader.program_header_entry_size {C E : Type} (cp : ClassParse C)
    (ep : EncodingParse E) (h : ElfHeader C E) : Nat :=
  match cp.into_class h.cls with
  | .class32 => exceptD 0 (ep.parse_at h.encoding 2 42 h.slice)
  | .class64 => exceptD 0 (ep.parse_at h.encoding 2 54 h.slice)

/-- `ElfHeader::program_header_count`: a `u16` at offset 44 (class 32) or 56
(class 64). -/
def ElfHeader.program_header_count {C E : Type} (cp : ClassParse C)
    (ep : EncodingParse E) (h : ElfHeader C E) : Nat :=
  match cp.into_class h.cls with
  | .class32 => exceptD 0 (ep.parse_at h.encoding 2 44 h.slice)
  | .class64 => exceptD 0 (ep.parse_at h.encoding 2 56 h.slice)

/-! ## src/lib.rs -/

/-- The `ElfFile` view struct from src/lib.rs. -/
structure ElfFile (C E : Type) where
  slice : List Nat
  cls : C
  encoding : E
deriving DecidableEq

/-- `ParseElfFileError` from src/lib.rs. -/
inductive ParseElfFileError where
  | invalidMagicNumbers (bytes : List Nat)
  | unsupportedClass (e : UnsupportedClassError)
  | unsupportedEncoding (e : UnsupportedEncodingError)
  | invalidElfHeaderVersion (v : Nat)
  | nonZeroPadding
  | parseIntegerError (e : ParseIntegerError)
deriving DecidableEq

/-- `ElfFile::parse` (src/lib.rs lines 33-82), embedded exactly as written:

* the magic test returns `InvalidMagicNumbers` when the first four bytes
  EQUAL `MAGIC_BYTES` (the source condition is `==`, not `!=`);
* after the `file.len() < 5` guard, `file[5]` is indexed with no length
  check, so a 5-byte buffer with a valid class byte panics: `.panic`;
* the padding test returns `NonZeroPadding` when all padding bytes ARE zero
  (the source uses `iter().all(|v| v == 0)` as the failure condition);
* the final success path is `todo!()`: `.panic`. -/
def ElfFile.parse {C E : Type} (cp : ClassParse C) (ep : EncodingParse E)
    (file : List Nat) : PResult ParseElfFileError (ElfFile C E) :=
  if file.length < 4 then
    .error (.parseIntegerError (.boundsError 0 4 file.length))
  else if file.take 4 = MAGIC_BYTES then
    .error (.invalidMagicNumbers (file.take 4))
  else if file.length < 5 then
    .error (.parseIntegerError (.boundsError 0 4 file.length))
  else
    match cp.from_elf_class (file.getD 4 0) with
    | .error e => .error (.unsupportedClass e)
    | .ok _c =>
      if file.length ≤ 5 then .panic
      else
        match ep.from_elf_data (file.getD 5 0) with
        | .error e => .error (.unsupportedEncoding e)
        | .ok enc =>
          match ep.parse_at enc 1 6 file with
          | .error e => .error (.parseIntegerError e)
          | .ok header_version =>
            if header_version ≠ 1 then
              .error (.invalidElfHeaderVersion header_version)
            else if file.length < 16 then
              .error (.parseIntegerError (.boundsError 9 7 file.length))
            else if ((file.drop 9).take 7).all (fun v => v = 0) then
              .error .nonZeroPadding
            else .panic

/-! ## src/elf_program_header.rs

Field offsets of `Elf64ProgramHeader` (src/raw/elf_program_header.rs,
`repr(C)`): type at 0, flags at 4, file_offset at 8, virtual_address at 16,
physical_address at 24, file_size at 32, memory_size at 40, alignment at 48;
total size 56. -/

/-- The `ElfProgramHeader` view struct from src/elf_program_header.rs. -/
structure ElfProgramHeader (C E : Type) where
  slice : List Nat
  cls : C
  encoding : E
deriving DecidableEq

/-- `ParseElfProgramHeaderError` from src/elf_program_header.rs. -/
inductive ParseElfProgramHeaderError where
  | sliceTooSmall
  | invalidAlignment
  | unalignedSegment
deriving DecidableEq

/-- `u64::is_power_of_two`, i.e. `count_ones() == 1`: for a 64-bit value this
is equivalent to being one of `2 ^ k` for `k < 64` (false at zero). -/
def u64_is_power_of_two (n : Nat) : Bool :=
  (List.range 64).any (fun k => n = 2 ^ k)

/-- `ElfProgramHeader::file_offset`: `u64` at offset 8 for class 64; the
class-32 arm is `todo!()` in the source, modelled as `none`. -/
def ElfProgramHeader.file_offset {C E : Type} (cp : ClassParse C)
    (ep : EncodingParse E) (h : ElfProgramHeader C E) : Option Nat :=
  match cp.into_class h.cls with
  | .class32 => none
  | .class64 => some (exceptD 0 (ep.parse_at h.encoding 8 8 h.slice))

/-- `ElfProgramHeader::virtual_address`: `u64` at offset 16 for class 64; the
class-32 arm is `todo!()` in the source, modelled as `none`. -/
def ElfProgramHeader.virtual_address {C E : Type} (cp : ClassParse C)
    (ep : EncodingParse E) (h : ElfProgramHeader C E) : Option Nat :=
  match cp.into_class h.cls with
  | .class32 => none
  | .class64 => some (exceptD 0 (ep.parse_at h.encoding 8 16 h.slice))

/-- `ElfProgramHeader::alignment`: `u64` at offset 48 for class 64; the
class-32 arm is `todo!()` in the source, modelled as `none`. -/
def ElfProgramHeader.alignment {C E : Type} (cp : ClassParse C)
    (ep : EncodingParse E) (h : ElfProgramHeader C E) : Option Nat :=
  match cp.into_class h.cls with
  | .class32 => none
  | .class64 => some (exceptD 0 (ep.parse_at h.encoding 8 48 h.slice))

/-- `ElfProgramHeader::parse` (src/elf_program_header.rs lines 22-56).  The
`Class32` arm is `todo!()` in the source: `.panic`.  In the class-64 arm every
accessor read is within the 56-byte bound just checked, so the `getD 0`
defaults (which cover the accessors' class-32 arms) are never exercised. -/
def ElfProgramHeader.parse {C E : Type} (cp : ClassParse C)
    (ep : EncodingParse E) (slice : List Nat) (c : C) (e : E) :
    PResult ParseElfProgramHeaderError (ElfProgramHeader C E) :=
  match cp.into_class c with
  | .class32 => .panic
  | .class64 =>
    if slice.length < 56 then .error .sliceTooSmall
    else
      let hdr : ElfProgramHeader C E := ⟨slice, c, e⟩
      let align := (hdr.alignment cp ep).getD 0
      if !u64_is_power_of_two align && align ≠ 0 then
        .error .invalidAlignment
      else if align ≠ 0 &&
          (hdr.virtual_address cp ep).getD 0 % align ≠
            (hdr.file_offset cp ep).getD 0 % align then
        .error .unalignedSegment
      else .ok hdr

/-- The `ElfProgramHeaderTable` view struct from src/elf_program_header.rs. -/
structure ElfProgramHeaderTable (C E : Type) where
  slice : List Nat
  entry_count : Nat
  entry_size : Nat
  cls : C
  encoding : E
deriving DecidableEq

/-- `ParseElfProgramHeaderTableError` from src/elf_program_header.rs. -/
inductive ParseElfProgramHeaderTableError where
  | sliceTooSmall
  | parseElfProgramHeaderError (index : Nat) (error : ParseElfProgramHeaderError)
deriving DecidableEq

/-- `usize::checked_mul` with the 64-bit native width. -/
def checked_mul_usize (a b : Nat) : Option Nat :=
  if a * b < 2 ^ 64 then some (a * b) else none

/-- The entry loop of `ElfProgramHeaderTable::parse`: parse each entry at
`slice[index * entry_size..]` in order, wrapping the first failure with its
zero-based index; structural recursion on the number of remaining entries. -/
def ElfProgramHeaderTable.checkEntries {C E : Type} (cp : ClassParse C)
    (ep : EncodingParse E) (slice : List Nat) (entry_size : Nat) (c : C)
    (e : E) (index : Nat) : Nat → PResult ParseElfProgramHeaderTableError Unit
  | 0 => .ok ()
  | n + 1 =>
    match ElfProgramHeader.parse cp ep (slice.drop (index * entry_size)) c e with
    | .panic => .panic
    | .error err => .error (.parseElfProgramHeaderError index err)
    | .ok _ =>
      ElfProgramHeaderTable.checkEntries cp ep slice entry_size c e (index + 1) n

/-- `ElfProgramHeaderTable::parse` (src/elf_program_header.rs lines 195-227):
`entry_count.checked_mul(entry_size).ok_or(SliceTooSmall)`, the length check,
then the entry loop. -/
def ElfProgramHeaderTable.parse {C E : Type} (cp : ClassParse C)
    (ep : EncodingParse E) (slice : List Nat) (entry_count entry_size : Nat)
    (c : C) (e : E) :
    PResult ParseElfProgramHeaderTableError (ElfProgramHeaderTable C E) :=
  match checked_mul_usize entry_count entry_size with
  | none => .error .sliceTooSmall
  | some total_size =>
    if slice.length < total_size then .error .sliceTooSmall
    else
      match ElfProgramHeaderTable.checkEntries cp ep slice entry_size c e 0
          entry_count with
      | .panic => .panic
      | .error err => .error err
      | .ok _ => .ok ⟨slice, entry_count, entry_size, c, e⟩

/-! ## Helper lemmas about the integer decoders -/

/-- When the offset is within the buffer but the read extends past its end,
the little-endian decoder reports a bounds error with the exact triple. -/
theorem le_parse_at_boundsError (w offset : Nat) (data : List Nat)
    (h1 : offset ≤ data.length) (h2 : data.length < offset + w) :
    LittleEndian.parse_at w offset data =
      .error (.boundsError offset w data.length) := by
  have hs : checkedSub data.length offset = some (data.length - offset) := by
    unfold checkedSub
    rw [if_pos h1]
  unfold LittleEndian.parse_at
  rw [hs]
  have hlt : data.length - offset < w := by omega
  simp [hlt]

/-- When the offset itself exceeds the buffer length, `checked_sub` fails and
the little-endian decoder reports an arithmetic error. -/
theorem le_parse_at_arithmeticError (w offset : Nat)
    (data : List Nat) (h : data.length < offset) :
    LittleEndian.parse_at w offset data = .error .arithmeticError := by
  have hs : checkedSub data.length offset = none := by
    unfold checkedSub
    rw [if_neg (by omega)]
  unfold LittleEndian.parse_at
  rw [hs]

/-- Big-endian version of `le_parse_at_boundsError`. -/
theorem be_parse_at_boundsError (w offset : Nat) (data : List Nat)
    (h1 : offset ≤ data.length) (h2 : data.length < offset + w) :
    BigEndian.parse_at w offset data =
      .error (.boundsError offset w data.length) := by
  have hs : checkedSub data.length offset = some (data.length - offset) := by
    unfold checkedSub
    rw [if_pos h1]
  unfold BigEndian.parse_at
  rw [hs]
  have hlt : data.length - offset < w := by omega
  simp [hlt]

/-- Big-endian version of `le_parse_at_arithmeticError`. -/
theorem be_parse_at_arithmeticError (w offset : Nat) (data : List Nat)
    (h : data.length < offset) :
    BigEndian.parse_at w offset data = .error .arithmeticError := by
  have hs : checkedSub data.length offset = none := by
    unfold checkedSub
    rw [if_neg (by omega)]
  unfold BigEndian.parse_at
  rw [hs]

/-- The little- and big-endian decoders take the same error branches. -/
theorem exceptErr_parse_at_eq (w offset : Nat) (data : List Nat) :
    exceptErr (LittleEndian.parse_at w offset data) =
      exceptErr (BigEndian.parse_at w offset data) := by
  unfold LittleEndian.parse_at BigEndian.parse_at
  cases h : checkedSub data.length offset with
  | none => rfl
  | some r =>
    by_cases hr : r < w <;> simp [hr, exceptErr]

/-- On sublists of at most one byte the two byte orders agree. -/
theorem fromLeBytes_take_one (l : List Nat) :
    fromLeBytes (l.take 1) = fromBeBytes (l.take 1) := by
  cases l with
  | nil => rfl
  | cons a l => simp [fromLeBytes, fromBeBytes]

instance {ε α : Type} [DecidableEq ε] [DecidableEq α] : DecidableEq (Except ε α)
  | .error e, .error f =>
    if h : e = f then .isTrue (by rw [h]) else .isFalse (by simp [h])
  | .error _, .ok _ => .isFalse (by simp)
  | .ok _, .error _ => .isFalse (by simp)
  | .ok a, .ok b =>
    if h : a = b then .isTrue (by rw [h]) else .isFalse (by simp [h])

/-! ## Claims -/

/-- A 16-byte buffer that is a fully valid class-32 little-endian ELF
identification block. -/
def class32IdentFile : List Nat :=
  [0x7F, 0x45, 0x4C, 0x46, 1, 1, 1, 0, 0, 0, 0, 0, 0, 0, 0, 0]

/-- A 16-byte buffer that reaches the tail of `ElfFile::parse`: wrong magic
(so the inverted magic check passes), valid class/encoding/version bytes, and
a nonzero padding byte (so the inverted padding check passes). -/
def elfFileTodoFile : List Nat :=
  [0, 0x45, 0x4C, 0x46, 1, 1, 1, 0, 0, 1, 0, 0, 0, 0, 0, 0]

/-- C1: the core's parse operations abort on reachable inputs.  `ElfHeader::parse`
and `ElfProgramHeader::parse` hit the `todo!()` in their `Class32` arms on any
valid 32-bit-class input, and `ElfFile::parse` hits its trailing `todo!()` on
a 16-byte input whose inverted magic and padding checks both pass — contrary
to the claim that every parse operation returns a view or a structured error
and never aborts. -/
theorem claim1_parse_operations_panic :
    ElfHeader.parse anyClassParse anyEncodingParse class32IdentFile = .panic
    ∧ ElfProgramHeader.parse anyClassParse anyEncodingParse []
        Class.class32 Encoding.twosComplementLittleEndian = .panic
    ∧ ElfFile.parse anyClassParse anyEncodingParse elfFileTodoFile = .panic := by
  refine ⟨by decide, rfl, by decide⟩

/-- A 16-byte buffer that is a fully valid class-64 little-endian ELF
identification block (correct magic, class 2, encoding 1, version 1,
all-zero padding). -/
def goodIdentFile : List Nat :=
  [0x7F, 0x45, 0x4C, 0x46, 2, 1, 1, 0, 0, 0, 0, 0, 0, 0, 0, 0]

/-- `goodIdentFile` with its first magic byte corrupted. -/
def wrongMagicZeroPadFile : List Nat :=
  [0, 0x45, 0x4C, 0x46, 2, 1, 1, 0, 0, 0, 0, 0, 0, 0, 0, 0]

/-- C3: both facade checks are inverted in src/lib.rs.  A buffer whose first
four bytes equal the ELF magic is rejected with `InvalidMagicNumbers`, and a
wrong-magic buffer with all-zero padding is rejected with `NonZeroPadding` —
the exact opposite of the claimed (and documented) directions. -/
theorem claim3_facade_checks_inverted :
    ElfFile.parse anyClassParse anyEncodingParse goodIdentFile =
      .error (.invalidMagicNumbers [0x7F, 0x45, 0x4C, 0x46])
    ∧ ElfFile.parse anyClassParse anyEncodingParse wrongMagicZeroPadFile =
      .error .nonZeroPadding := by
  refine ⟨by decide, by decide⟩

/-- C4, counterexample: at offset 1 into an empty buffer the read satisfies
`o + w > L` (1 + 1 > 0), yet the decoder returns `ArithmeticError`, not the
claimed bounds error carrying (1, 1, 0). -/
theorem claim4_counterexample :
    LittleEndian.parse_u8_at 1 [] = .error .arithmeticError
    ∧ LittleEndian.parse_u8_at 1 [] ≠
        .error (.boundsError 1 1 0)
    ∧ 1 + 1 > ([] : List Nat).length := by
  refine ⟨rfl, by simp [LittleEndian.parse_u8_at, LittleEndian.parse_at, checkedSub], by simp⟩

/-- C4, amended: for every reader and width, an out-of-range read at offset
`o ≤ L` with `o + w > L` yields `BoundsError (o, w, L)` exactly; when `o > L`
the `checked_sub` in the decoders fails first and the result is
`ArithmeticError` instead of a bounds error.  The signed readers, defined from
the same bodies, inherit the same error behavior. -/
theorem claim4_amended (w offset : Nat) (data : List Nat) (e : Encoding) :
    (offset ≤ data.length → data.length < offset + w →
      LittleEndian.parse_at w offset data =
          .error (.boundsError offset w data.length)
        ∧ BigEndian.parse_at w offset data =
          .error (.boundsError offset w data.length)
        ∧ AnyEncoding.parse_at e w offset data =
          .error (.boundsError offset w data.length))
    ∧ (data.length < offset →
      LittleEndian.parse_at w offset data = .error .arithmeticError
        ∧ BigEndian.parse_at w offset data = .error .arithmeticError
        ∧ AnyEncoding.parse_at e w offset data = .error .arithmeticError)
    ∧ (offset ≤ data.length → data.length < offset + 4 →
      LittleEndian.parse_i32_at offset data =
          .error (.boundsError offset 4 data.length)
        ∧ BigEndian.parse_i32_at offset data =
          .error (.boundsError offset 4 data.length))
    ∧ (offset ≤ data.length → data.length < offset + 8 →
      LittleEndian.parse_i64_at offset data =
          .error (.boundsError offset 8 data.length)
        ∧ BigEndian.parse_i64_at offset data =
          .error (.boundsError offset 8 data.length)) := by
  refine ⟨fun h1 h2 => ⟨le_parse_at_boundsError w offset data h1 h2,
      be_parse_at_boundsError w offset data h1 h2, ?_⟩,
    fun h => ⟨le_parse_at_arithmeticError w offset data h,
      be_parse_at_arithmeticError w offset data h, ?_⟩,
    fun h1 h2 => ⟨?_, ?_⟩, fun h1 h2 => ⟨?_, ?_⟩⟩
  · cases e
    · exact le_parse_at_boundsError w offset data h1 h2
    · exact be_parse_at_boundsError w offset data h1 h2
  · cases e
    · exact le_parse_at_arithmeticError w offset data h
    · exact be_parse_at_arithmeticError w offset data h
  · unfold LittleEndian.parse_i32_at
    rw [le_parse_at_boundsError 4 offset data h1 h2]
    rfl
  · unfold BigEndian.parse_i32_at
    rw [be_parse_at_boundsError 4 offset data h1 h2]
    rfl
  · unfold LittleEndian.parse_i64_at
    rw [le_parse_at_boundsError 8 offset data h1 h2]
    rfl
  · unfold BigEndian.parse_i64_at
    rw [be_parse_at_boundsError 8 offset data h1 h2]
    rfl

/-- Witness for C4's amended theorem at concrete inputs: a two-byte read at
offset 3 of a four-byte buffer reports exactly (3, 2, 4), and a read at
offset 5 past an empty buffer reports an arithmetic error. -/
theorem claim4_amended_witness :
    LittleEndian.parse_at 2 3 [0, 0, 0, 0] = .error (.boundsError 3 2 4)
    ∧ BigEndian.parse_at 1 5 [] = .error .arithmeticError :=
  ⟨((claim4_amended 2 3 [0, 0, 0, 0] Encoding.twosComplementLittleEndian).1
      (by decide) (by decide)).1,
    ((claim4_amended 1 5 [] Encoding.twosComplementBigEndian).2.1
      (by decide)).2.1⟩

/-- A 64-byte class-64 little-endian file whose header fields declare a
program-header table of 65535 entries of 56 bytes each at file offset
`2 ^ 64 - 1` (all other fields valid: object-file version 1, header size 64,
section-header entry size 64). -/
def hugeTableFile : List Nat :=
  [0x7F, 0x45, 0x4C, 0x46, 2, 1, 1, 0, 0, 0, 0, 0, 0, 0, 0, 0,
   0, 0, 0, 0,
   1, 0, 0, 0,
   0, 0, 0, 0, 0, 0, 0, 0,
   255, 255, 255, 255, 255, 255, 255, 255,
   0, 0, 0, 0, 0, 0, 0, 0,
   0, 0, 0, 0,
   64, 0,
   56, 0,
   255, 255,
   64, 0,
   0, 0,
   0, 0]

/-- C2, counterexample: `ElfHeader::parse` succeeds on `hugeTableFile` even
though the declared program-header table extent
`offset + count × entry_size = (2 ^ 64 - 1) + 65535 × 56` overflows the
64-bit address type and the declared offset alone already exceeds the 64-byte
buffer — the parse performs no overflow-checked extent computation and no
bounds check, contrary to the claim. -/
theorem claim2_counterexample :
    ElfHeader.parse anyClassParse anyEncodingParse hugeTableFile =
      .ok ⟨hugeTableFile, Class.class64, Encoding.twosComplementLittleEndian⟩
    ∧ ElfHeader.program_header_offset anyClassParse anyEncodingParse
        ⟨hugeTableFile, Class.class64, Encoding.twosComplementLittleEndian⟩ =
      2 ^ 64 - 1
    ∧ ElfHeader.program_header_count anyClassParse anyEncodingParse
        ⟨hugeTableFile, Class.class64, Encoding.twosComplementLittleEndian⟩ =
      65535
    ∧ ElfHeader.program_header_entry_size anyClassParse anyEncodingParse
        ⟨hugeTableFile, Class.class64, Encoding.twosComplementLittleEndian⟩ =
      56
    ∧ hugeTableFile.length = 64
    ∧ 2 ^ 64 < (2 ^ 64 - 1) + 65535 * 56
    ∧ hugeTableFile.length < 2 ^ 64 - 1 := by
  refine ⟨by decide, by decide, by decide, by decide, by decide, by norm_num,
    by norm_num [hugeTableFile]⟩

/-- C2, amended: for a file whose identification block parses with class 64,
`ElfHeader::parse` succeeds exactly when the buffer holds the 64-byte header,
the object-file version is 1, and the declared header size, program-header
entry size, and section-header entry size meet the class-64 minima (64, 56,
64); it computes no table extent, so success does not constrain the declared
table ranges. -/
theorem claim2_amended (file : List Nat) (id : ElfIdent Class Encoding)
    (hid : ElfIdent.parse anyClassParse anyEncodingParse file = .ok id)
    (hcls : id.cls = Class.class64) :
    (ElfHeader.parse anyClassParse anyEncodingParse file).isOk = true ↔
      64 ≤ file.length
      ∧ exceptD 0 (AnyEncoding.parse_at id.encoding 4 20 file) = 1
      ∧ 64 ≤ exceptD 0 (AnyEncoding.parse_at id.encoding 2 52 file)
      ∧ 56 ≤ exceptD 0 (AnyEncoding.parse_at id.encoding 2 54 file)
      ∧ 64 ≤ exceptD 0 (AnyEncoding.parse_at id.encoding 2 58 file) := by
  unfold ElfHeader.parse
  rw [hid]
  simp only [anyClassParse, anyEncodingParse]
  rw [hcls]
  split_ifs with h1 h2 h3 h4 h5 <;> simp [PResult.isOk] <;> omega

/-- Witness for C2's amended theorem: `hugeTableFile` itself satisfies every
condition on the right-hand side, so its header parse succeeds. -/
theorem claim2_amended_witness :
    (ElfHeader.parse anyClassParse anyEncodingParse hugeTableFile).isOk = true :=
  (claim2_amended hugeTableFile
      ⟨hugeTableFile, Class.class64, Encoding.twosComplementLittleEndian⟩
      (by decide) rfl).mpr (by decide)

/-- C8, counterexample: on the bytes `[0, 1]` at offset 0 the fixed
little-endian reader returns 256 while the fixed big-endian reader returns 1,
so the three readers do not all produce bit-identical results for the same
bytes and offset. -/
theorem claim8_counterexample :
    LittleEndian.parse_u16_at 0 [0, 1] = .ok 256
    ∧ BigEndian.parse_u16_at 0 [0, 1] = .ok 1
    ∧ (256 : Nat) ≠ 1 := by
  refine ⟨rfl, rfl, by decide⟩

/-- C8, amended: the runtime-dispatching reader forwards to the convention it
stores, so it is bit-identical to the corresponding fixed reader at every
width (unsigned and signed); the two fixed readers take identical error
branches and agree on single-byte values, but differ on multi-byte `Ok`
values according to byte order. -/
theorem claim8_amended (w offset : Nat) (data : List Nat) :
    AnyEncoding.parse_at Encoding.twosComplementLittleEndian w offset data =
      LittleEndian.parse_at w offset data
    ∧ AnyEncoding.parse_at Encoding.twosComplementBigEndian w offset data =
      BigEndian.parse_at w offset data
    ∧ AnyEncoding.parse_i32_at Encoding.twosComplementLittleEndian offset data =
      LittleEndian.parse_i32_at offset data
    ∧ AnyEncoding.parse_i64_at Encoding.twosComplementBigEndian offset data =
      BigEndian.parse_i64_at offset data
    ∧ exceptErr (LittleEndian.parse_at w offset data) =
      exceptErr (BigEndian.parse_at w offset data)
    ∧ LittleEndian.parse_u8_at offset data = BigEndian.parse_u8_at offset data := by
  refine ⟨rfl, rfl, rfl, rfl, exceptErr_parse_at_eq w offset data, ?_⟩
  unfold LittleEndian.parse_u8_at BigEndian.parse_u8_at
  unfold LittleEndian.parse_at BigEndian.parse_at
  cases h : checkedSub data.length offset with
  | none => rfl
  | some r =>
    by_cases hr : r < 1
    · simp [hr]
    · simp only [hr, if_false]
      unfold readExact
      rw [fromLeBytes_take_one]

/-- `uN::to_le_bytes`: the `w`-byte little-endian encoding of a value. -/
def toLeBytesN : Nat → Nat → List Nat
  | 0, _ => []
  | w + 1, v => v % 256 :: toLeBytesN w (v / 256)

theorem toLeBytesN_length (w v : Nat) : (toLeBytesN w v).length = w := by
  induction w generalizing v with
  | zero => rfl
  | succ w ih => simp [toLeBytesN, ih]

theorem fromLeBytes_toLeBytesN (w v : Nat) (hv : v < 2 ^ (8 * w)) :
    fromLeBytes (toLeBytesN w v) = v := by
  induction w generalizing v with
  | zero =>
    simp only [Nat.mul_zero, pow_zero, Nat.lt_one_iff] at hv
    simp [toLeBytesN, fromLeBytes, hv]
  | succ w ih =>
    have hdiv : v / 256 < 2 ^ (8 * w) := by
      have h256 : (256 : Nat) = 2 ^ 8 := by norm_num
      rw [Nat.div_lt_iff_lt_mul (by norm_num), h256, ← pow_add]
      have : 8 * w + 8 = 8 * (w + 1) := by ring
      rw [this]
      exact hv
    simp only [toLeBytesN, fromLeBytes, ih (v / 256) hdiv]
    omega

theorem fromBeBytes_append_singleton (l : List Nat) (a : Nat) :
    fromBeBytes (l ++ [a]) = 256 * fromBeBytes l + a := by
  unfold fromBeBytes
  rw [List.foldl_append]
  rfl

theorem fromBeBytes_reverse (l : List Nat) :
    fromBeBytes l.reverse = fromLeBytes l := by
  induction l with
  | nil => rfl
  | cons a l ih =>
    simp only [List.reverse_cons, fromBeBytes_append_singleton, ih, fromLeBytes]
    ring

/-- Reading `w` bytes at the offset where a `w`-byte run was placed isolates
exactly that run. -/
theorem readExact_append (pre mid suf : List Nat) (w : Nat)
    (hmid : mid.length = w) :
    readExact pre.length w (pre ++ mid ++ suf) = mid := by
  unfold readExact
  rw [List.append_assoc, List.drop_left, ← hmid, List.take_left]

theorem le_parse_at_append (pre mid suf : List Nat) (w : Nat)
    (hmid : mid.length = w) :
    LittleEndian.parse_at w pre.length (pre ++ mid ++ suf) =
      .ok (fromLeBytes mid) := by
  have hlen : (pre ++ mid ++ suf).length =
      pre.length + (w + suf.length) := by
    simp only [List.length_append, hmid]
    omega
  have hs : checkedSub (pre ++ mid ++ suf).length pre.length =
      some (w + suf.length) := by
    unfold checkedSub
    rw [if_pos (by omega)]
    have hsub : (pre ++ mid ++ suf).length - pre.length = w + suf.length := by
      omega
    rw [hsub]
  unfold LittleEndian.parse_at
  rw [hs]
  dsimp only
  rw [if_neg (by omega), readExact_append pre mid suf w hmid]

theorem be_parse_at_append (pre mid suf : List Nat) (w : Nat)
    (hmid : mid.length = w) :
    BigEndian.parse_at w pre.length (pre ++ mid ++ suf) =
      .ok (fromBeBytes mid) := by
  have hlen : (pre ++ mid ++ suf).length =
      pre.length + (w + suf.length) := by
    simp only [List.length_append, hmid]
    omega
  have hs : checkedSub (pre ++ mid ++ suf).length pre.length =
      some (w + suf.length) := by
    unfold checkedSub
    rw [if_pos (by omega)]
    have hsub : (pre ++ mid ++ suf).length - pre.length = w + suf.length := by
      omega
    rw [hsub]
  unfold BigEndian.parse_at
  rw [hs]
  dsimp only
  rw [if_neg (by omega), readExact_append pre mid suf w hmid]

/-- C9: for each encoding and every width, writing a `w`-byte value in that
byte order at offset `o` (after an arbitrary `o`-byte prefix, with arbitrary
trailing bytes) and decoding at `o` returns `Ok` of the original value; this
covers the fixed readers and the runtime-dispatching reader alike. -/
theorem claim9_roundtrip (w v : Nat) (pre suf : List Nat)
    (hv : v < 2 ^ (8 * w)) :
    LittleEndian.parse_at w pre.length (pre ++ toLeBytesN w v ++ suf) = .ok v
    ∧ BigEndian.parse_at w pre.length
        (pre ++ (toLeBytesN w v).reverse ++ suf) = .ok v
    ∧ AnyEncoding.parse_at Encoding.twosComplementLittleEndian w pre.length
        (pre ++ toLeBytesN w v ++ suf) = .ok v
    ∧ AnyEncoding.parse_at Encoding.twosComplementBigEndian w pre.length
        (pre ++ (toLeBytesN w v).reverse ++ suf) = .ok v := by
  have hle : LittleEndian.parse_at w pre.length
      (pre ++ toLeBytesN w v ++ suf) = .ok v := by
    rw [le_parse_at_append pre (toLeBytesN w v) suf w
        (toLeBytesN_length w v), fromLeBytes_toLeBytesN w v hv]
  have hbe : BigEndian.parse_at w pre.length
      (pre ++ (toLeBytesN w v).reverse ++ suf) = .ok v := by
    rw [be_parse_at_append pre (toLeBytesN w v).reverse suf w
        (by rw [List.length_reverse, toLeBytesN_length]),
      fromBeBytes_reverse, fromLeBytes_toLeBytesN w v hv]
  exact ⟨hle, hbe, hle, hbe⟩

/-- Witness for C9 at a concrete input: the value 258 written little-endian
as `[2, 1]` after a one-byte prefix reads back as 258 at offset 1, and
written big-endian as `[1, 2]` likewise. -/
theorem claim9_roundtrip_witness :
    LittleEndian.parse_at 2 1 [9, 2, 1, 7] = .ok 258
    ∧ BigEndian.parse_at 2 1 [9, 1, 2, 7] = .ok 258 := by
  have h := claim9_roundtrip 2 258 [9] [7] (by norm_num)
  exact ⟨h.1, h.2.1⟩

/-- The decoded 64-bit alignment field (offset 48) of a class-64 program
header over `slice`, as read through the runtime-dispatching strategies. -/
def ph64_alignment (slice : List Nat) (e : Encoding) : Nat :=
  (ElfProgramHeader.alignment anyClassParse anyEncodingParse
    ⟨slice, Class.class64, e⟩).getD 0

/-- The decoded 64-bit virtual-address field (offset 16) of a class-64
program header over `slice`. -/
def ph64_virtual_address (slice : List Nat) (e : Encoding) : Nat :=
  (ElfProgramHeader.virtual_address anyClassParse anyEncodingParse
    ⟨slice, Class.class64, e⟩).getD 0

/-- The decoded 64-bit file-offset field (offset 8) of a class-64 program
header over `slice`. -/
def ph64_file_offset (slice : List Nat) (e : Encoding) : Nat :=
  (ElfProgramHeader.file_offset anyClassParse anyEncodingParse
    ⟨slice, Class.class64, e⟩).getD 0

/-- C5: for class 64 and a slice holding at least one 56-byte entry,
`ElfProgramHeader::parse` fails with `InvalidAlignment` exactly when the
decoded alignment is neither zero nor a power of two; for a nonzero
power-of-two alignment it succeeds exactly when virtual address and file
offset agree modulo the alignment (failing with `UnalignedSegment`
otherwise); and a zero alignment always succeeds. -/
theorem claim5_program_header_alignment (slice : List Nat) (e : Encoding)
    (hlen : 56 ≤ slice.length) (hbytes : ∀ b ∈ slice, b < 256) :
    (ElfProgramHeader.parse anyClassParse anyEncodingParse slice
        Class.class64 e = .error .invalidAlignment
      ↔ ph64_alignment slice e ≠ 0
        ∧ u64_is_power_of_two (ph64_alignment slice e) = false)
    ∧ (ph64_alignment slice e ≠ 0 →
        u64_is_power_of_two (ph64_alignment slice e) = true →
        ((ElfProgramHeader.parse anyClassParse anyEncodingParse slice
              Class.class64 e).isOk = true
          ↔ ph64_virtual_address slice e % ph64_alignment slice e
            = ph64_file_offset slice e % ph64_alignment slice e)
        ∧ (ph64_virtual_address slice e % ph64_alignment slice e
              ≠ ph64_file_offset slice e % ph64_alignment slice e →
            ElfProgramHeader.parse anyClassParse anyEncodingParse slice
              Class.class64 e = .error .unalignedSegment))
    ∧ (ph64_alignment slice e = 0 →
        (ElfProgramHeader.parse anyClassParse anyEncodingParse slice
          Class.class64 e).isOk = true) := by
  have hnot : ¬ slice.length < 56 := by omega
  have ha : (ElfProgramHeader.alignment anyClassParse anyEncodingParse
      (⟨slice, Class.class64, e⟩ : ElfProgramHeader Class Encoding)).getD 0 =
      ph64_alignment slice e := rfl
  have hv : (ElfProgramHeader.virtual_address anyClassParse anyEncodingParse
      (⟨slice, Class.class64, e⟩ : ElfProgramHeader Class Encoding)).getD 0 =
      ph64_virtual_address slice e := rfl
  have hf : (ElfProgramHeader.file_offset anyClassParse anyEncodingParse
      (⟨slice, Class.class64, e⟩ : ElfProgramHeader Class Encoding)).getD 0 =
      ph64_file_offset slice e := rfl
  unfold ElfProgramHeader.parse
  rw [show anyClassParse.into_class Class.class64 = Class.class64 from rfl]
  dsimp only
  rw [if_neg hnot, ha, hv, hf]
  split_ifs with h1 h2 <;>
    simp_all [PResult.isOk, Bool.and_eq_true, Bool.not_eq_true',
      decide_eq_true_eq]
  intro hne
  rcases Bool.eq_false_or_eq_true
      (u64_is_power_of_two (ph64_alignment slice e)) with hb | hb
  · exact hb
  · exact absurd (h1 hb) hne

/-- Witness for C5 at a concrete input: an all-zero 56-byte entry has
alignment 0 and parses successfully. -/
theorem claim5_witness :
    (ElfProgramHeader.parse anyClassParse anyEncodingParse
      (List.replicate 56 0) Class.class64
      Encoding.twosComplementLittleEndian).isOk = true :=
  (claim5_program_header_alignment (List.replicate 56 0)
      Encoding.twosComplementLittleEndian (by simp)
      (by intro b hb; simp_all)).2.2 (by decide)

/-- A nonzero scan over a list succeeds exactly when some position holds a
nonzero value. -/
theorem any_ne_zero_iff_exists (l : List Nat) :
    (l.any fun v => v ≠ 0) = true ↔ ∃ j, j < l.length ∧ l.getD j 0 ≠ 0 := by
  induction l with
  | nil => simp
  | cons a l ih =>
    simp only [List.any_cons, Bool.or_eq_true, decide_eq_true_eq, ih]
    constructor
    · rintro (ha | ⟨j, hj, hne⟩)
      · exact ⟨0, by simp, by rwa [List.getD_cons_zero]⟩
      · exact ⟨j + 1, by simp only [List.length_cons]; omega,
          by rwa [List.getD_cons_succ]⟩
    · rintro ⟨j, hj, hne⟩
      cases j with
      | zero =>
        left
        rwa [List.getD_cons_zero] at hne
      | succ j =>
        right
        refine ⟨j, by simp only [List.length_cons] at hj; omega,
          by rwa [List.getD_cons_succ] at hne⟩

/-- Position `j` of the seven-byte padding window is byte `9 + j` of the
file. -/
theorem getD_drop_take_seven (file : List Nat) (j : Nat) (hj : j < 7) :
    ((file.drop 9).take 7).getD j 0 = file.getD (9 + j) 0 := by
  rw [List.getD_eq_getElem?_getD, List.getD_eq_getElem?_getD,
    List.getElem?_take_of_lt hj, List.getElem?_drop]

/-- For a buffer holding the whole ident block, the padding scan fires
exactly when some byte at offsets 9-15 is nonzero. -/
theorem padding_nonzero_iff (file : List Nat) (h : 16 ≤ file.length) :
    (((file.drop 9).take 7).any fun v => v ≠ 0) = true
      ↔ ∃ k, 9 ≤ k ∧ k < 16 ∧ file.getD k 0 ≠ 0 := by
  rw [any_ne_zero_iff_exists]
  have hlen7 : ((file.drop 9).take 7).length = 7 := by
    simp only [List.length_take, List.length_drop]
    omega
  constructor
  · rintro ⟨j, hj, hne⟩
    rw [hlen7] at hj
    rw [getD_drop_take_seven file j hj] at hne
    exact ⟨9 + j, by omega, by omega, hne⟩
  · rintro ⟨k, h9, h16, hne⟩
    refine ⟨k - 9, by rw [hlen7]; omega, ?_⟩
    rw [getD_drop_take_seven file (k - 9) (by omega)]
    have hk : 9 + (k - 9) = k := by omega
    rw [hk]
    exact hne

/-- Value of `ElfIdent::parse` on a short buffer. -/
theorem elfIdent_parse_too_small {C E : Type} (cp : ClassParse C)
    (ep : EncodingParse E) (file : List Nat) (h : file.length < 16) :
    ElfIdent.parse cp ep file = .error .fileTooSmall := by
  unfold ElfIdent.parse
  rw [if_pos h]

/-- Value of `ElfIdent::parse` on a wrong-magic buffer. -/
theorem elfIdent_parse_bad_magic {C E : Type} (cp : ClassParse C)
    (ep : EncodingParse E) (file : List Nat) (h1 : ¬ file.length < 16)
    (h2 : file.take 4 ≠ MAGIC_BYTES) :
    ElfIdent.parse cp ep file = .error .invalidMagicBytes := by
  unfold ElfIdent.parse
  rw [if_neg h1, if_pos h2]

/-- Value of `ElfIdent::parse` when the class byte is unsupported. -/
theorem elfIdent_parse_bad_class (file : List Nat) (b : Nat)
    (h1 : ¬ file.length < 16) (h2 : file.take 4 = MAGIC_BYTES)
    (hb : file.getD 4 0 = b) (hb1 : b ≠ 1) (hb2 : b ≠ 2) :
    ElfIdent.parse anyClassParse anyEncodingParse file =
      .error (.unsupportedClassError ⟨b⟩) := by
  unfold ElfIdent.parse
  rw [if_neg h1, if_neg (by simpa using h2)]
  have hcl : anyClassParse.from_elf_class (file.getD 4 0) = .error ⟨b⟩ := by
    simp only [anyClassParse, AnyClass.from_elf_class, hb]
    rw [if_neg hb1, if_neg hb2]
  rw [hcl]

/-- Value of `ElfIdent::parse` when the class resolves but the encoding byte
is unsupported. -/
theorem elfIdent_parse_bad_encoding (file : List Nat) (b : Nat) (c : Class)
    (h1 : ¬ file.length < 16) (h2 : file.take 4 = MAGIC_BYTES)
    (hc : anyClassParse.from_elf_class (file.getD 4 0) = .ok c)
    (hb : file.getD 5 0 = b) (hb1 : b ≠ 1) (hb2 : b ≠ 2) :
    ElfIdent.parse anyClassParse anyEncodingParse file =
      .error (.unsupportedEncodingError ⟨b⟩) := by
  unfold ElfIdent.parse
  rw [if_neg h1, if_neg (by simpa using h2), hc]
  have hen : anyEncodingParse.from_elf_data (file.getD 5 0) = .error ⟨b⟩ := by
    simp only [anyEncodingParse, AnyEncoding.from_elf_data, hb]
    rw [if_neg hb1, if_neg hb2]
  rw [hen]

/-- Value of `ElfIdent::parse` once class and encoding resolve: only the
version and padding checks remain. -/
theorem elfIdent_parse_resolved (file : List Nat) (c : Class) (e : Encoding)
    (h1 : ¬ file.length < 16) (h2 : file.take 4 = MAGIC_BYTES)
    (hc : anyClassParse.from_elf_class (file.getD 4 0) = .ok c)
    (he : anyEncodingParse.from_elf_data (file.getD 5 0) = .ok e) :
    ElfIdent.parse anyClassParse anyEncodingParse file =
      if file.getD 6 0 ≠ 1 then .error .unsupportedElfHeaderVersion
      else if ((file.drop 9).take 7).any (fun v => v ≠ 0) then
        .error .nonZeroPadding
      else .ok ⟨file, c, e⟩ := by
  unfold ElfIdent.parse
  rw [if_neg h1, if_neg (by simpa using h2), hc, he]

/-- The seven-way characterization of `ElfIdent::parse` with the runtime
class and encoding strategies: each outcome holds exactly when its guard is
the first to fire in the source's check order. -/
theorem elfIdent_parse_characterization (file : List Nat) :
    (ElfIdent.parse anyClassParse anyEncodingParse file =
        .error .fileTooSmall ↔ file.length < 16)
    ∧ (ElfIdent.parse anyClassParse anyEncodingParse file =
        .error .invalidMagicBytes
      ↔ 16 ≤ file.length ∧ file.take 4 ≠ MAGIC_BYTES)
    ∧ (∀ b, ElfIdent.parse anyClassParse anyEncodingParse file =
        .error (.unsupportedClassError ⟨b⟩)
      ↔ 16 ≤ file.length ∧ file.take 4 = MAGIC_BYTES
        ∧ file.getD 4 0 = b ∧ b ≠ 1 ∧ b ≠ 2)
    ∧ (∀ b, ElfIdent.parse anyClassParse anyEncodingParse file =
        .error (.unsupportedEncodingError ⟨b⟩)
      ↔ 16 ≤ file.length ∧ file.take 4 = MAGIC_BYTES
        ∧ (file.getD 4 0 = 1 ∨ file.getD 4 0 = 2)
        ∧ file.getD 5 0 = b ∧ b ≠ 1 ∧ b ≠ 2)
    ∧ (ElfIdent.parse anyClassParse anyEncodingParse file =
        .error .unsupportedElfHeaderVersion
      ↔ 16 ≤ file.length ∧ file.take 4 = MAGIC_BYTES
        ∧ (file.getD 4 0 = 1 ∨ file.getD 4 0 = 2)
        ∧ (file.getD 5 0 = 1 ∨ file.getD 5 0 = 2)
        ∧ file.getD 6 0 ≠ 1)
    ∧ (ElfIdent.parse anyClassParse anyEncodingParse file =
        .error .nonZeroPadding
      ↔ 16 ≤ file.length ∧ file.take 4 = MAGIC_BYTES
        ∧ (file.getD 4 0 = 1 ∨ file.getD 4 0 = 2)
        ∧ (file.getD 5 0 = 1 ∨ file.getD 5 0 = 2)
        ∧ file.getD 6 0 = 1
        ∧ ∃ k, 9 ≤ k ∧ k < 16 ∧ file.getD k 0 ≠ 0)
    ∧ ((∃ id, ElfIdent.parse anyClassParse anyEncodingParse file = .ok id)
      ↔ 16 ≤ file.length ∧ file.take 4 = MAGIC_BYTES
        ∧ (file.getD 4 0 = 1 ∨ file.getD 4 0 = 2)
        ∧ (file.getD 5 0 = 1 ∨ file.getD 5 0 = 2)
        ∧ file.getD 6 0 = 1
        ∧ ∀ k, 9 ≤ k → k < 16 → file.getD k 0 = 0) := by
  by_cases h1 : file.length < 16
  · have hp := elfIdent_parse_too_small anyClassParse anyEncodingParse file h1
    refine ⟨?_, ?_, fun b => ?_, fun b => ?_, ?_, ?_, ?_⟩ <;>
      simp [-List.getD_eq_getElem?_getD, hp] <;>
      omega
  · have h1' : 16 ≤ file.length := Nat.le_of_not_lt h1
    by_cases h2 : file.take 4 = MAGIC_BYTES
    · by_cases h34 : file.getD 4 0 = 1 ∨ file.getD 4 0 = 2
      · obtain ⟨c, hc⟩ : ∃ c,
            anyClassParse.from_elf_class (file.getD 4 0) = .ok c := by
          rcases h34 with h | h
          · exact ⟨.class32, by
              simp only [anyClassParse, AnyClass.from_elf_class]
              rw [h, if_pos rfl]⟩
          · exact ⟨.class64, by
              simp only [anyClassParse, AnyClass.from_elf_class]
              rw [h, if_neg (by omega), if_pos rfl]⟩
        by_cases h56 : file.getD 5 0 = 1 ∨ file.getD 5 0 = 2
        · obtain ⟨e, he⟩ : ∃ e,
              anyEncodingParse.from_elf_data (file.getD 5 0) = .ok e := by
            rcases h56 with h | h
            · exact ⟨.twosComplementLittleEndian, by
                simp only [anyEncodingParse, AnyEncoding.from_elf_data]
                rw [h, if_pos rfl]⟩
            · exact ⟨.twosComplementBigEndian, by
                simp only [anyEncodingParse, AnyEncoding.from_elf_data]
                rw [h, if_neg (by omega), if_pos rfl]⟩
          have hres := elfIdent_parse_resolved file c e h1 h2 hc he
          by_cases h6 : file.getD 6 0 = 1
          · by_cases h7 : (((file.drop 9).take 7).any fun v => v ≠ 0) = true
            · have hp : ElfIdent.parse anyClassParse anyEncodingParse file =
                  .error .nonZeroPadding := by
                rw [hres, if_neg (by simpa using h6), if_pos h7]
              have hpad := (padding_nonzero_iff file (by omega)).mp h7
              refine ⟨?_, ?_, fun b => ?_, fun b => ?_, ?_, ?_, ?_⟩ <;>
                simp [-List.getD_eq_getElem?_getD, hp, h1', h2, h34, h56, h6, hpad] <;>
                first
                | tauto
                | omega
            · have hp : ElfIdent.parse anyClassParse anyEncodingParse file =
                  .ok ⟨file, c, e⟩ := by
                rw [hres, if_neg (by simpa using h6), if_neg h7]
              have hpad : ∀ k, 9 ≤ k → k < 16 → file.getD k 0 = 0 := by
                intro k hk9 hk16
                by_contra hne
                exact h7 ((padding_nonzero_iff file (by omega)).mpr
                  ⟨k, hk9, hk16, hne⟩)
              refine ⟨?_, ?_, fun b => ?_, fun b => ?_, ?_, ?_, ?_⟩ <;>
                simp [-List.getD_eq_getElem?_getD, hp, h1', h2, h34, h56, h6, hpad] <;>
                first
                | tauto
                | omega
          · have hp : ElfIdent.parse anyClassParse anyEncodingParse file =
                .error .unsupportedElfHeaderVersion := by
              rw [hres, if_pos (by simpa using h6)]
            refine ⟨?_, ?_, fun b => ?_, fun b => ?_, ?_, ?_, ?_⟩ <;>
              simp [-List.getD_eq_getElem?_getD, hp, h1', h2, h34, h56, h6] <;>
              first
              | tauto
              | omega
        · have h5ne : file.getD 5 0 ≠ 1 ∧ file.getD 5 0 ≠ 2 := by tauto
          have hp := elfIdent_parse_bad_encoding file (file.getD 5 0) c h1 h2
            hc rfl h5ne.1 h5ne.2
          refine ⟨?_, ?_, fun b => ?_, fun b => ?_, ?_, ?_, ?_⟩ <;>
            simp [-List.getD_eq_getElem?_getD, hp, h1', h2, h34, UnsupportedEncodingError.mk.injEq] <;>
            first
            | tauto
            | omega
      · have h4ne : file.getD 4 0 ≠ 1 ∧ file.getD 4 0 ≠ 2 := by tauto
        have hp := elfIdent_parse_bad_class file (file.getD 4 0) h1 h2 rfl
          h4ne.1 h4ne.2
        refine ⟨?_, ?_, fun b => ?_, fun b => ?_, ?_, ?_, ?_⟩ <;>
          simp [-List.getD_eq_getElem?_getD, hp, h1', h2, UnsupportedClassError.mk.injEq] <;>
          first
          | tauto
          | omega
    · have hp := elfIdent_parse_bad_magic anyClassParse anyEncodingParse file
        h1 h2
      refine ⟨?_, ?_, fun b => ?_, fun b => ?_, ?_, ?_, ?_⟩ <;>
        simp [-List.getD_eq_getElem?_getD, hp, h1', h2] <;>
        first
        | tauto
        | omega

/-- Writing bytes 7 and 8 (OS/ABI and ABI version) leaves every other byte
unchanged. -/
theorem set78_getD (file : List Nat) (x y j : Nat) (hj7 : j ≠ 7)
    (hj8 : j ≠ 8) :
    ((file.set 7 x).set 8 y).getD j 0 = file.getD j 0 := by
  rw [List.getD_eq_getElem?_getD, List.getD_eq_getElem?_getD,
    List.getElem?_set_ne (by omega), List.getElem?_set_ne (by omega)]

/-- Writing bytes 7 and 8 leaves the magic prefix unchanged. -/
theorem set78_take4 (file : List Nat) (x y : Nat) :
    ((file.set 7 x).set 8 y).take 4 = file.take 4 := by
  apply List.ext_getElem?
  intro i
  by_cases hi : i < 4
  · rw [List.getElem?_take_of_lt hi, List.getElem?_take_of_lt hi,
      List.getElem?_set_ne (by omega), List.getElem?_set_ne (by omega)]
  · rw [List.getElem?_eq_none, List.getElem?_eq_none] <;>
      simp only [List.length_take, List.length_set] <;>
      omega

/-- C6: `ElfIdent::parse` performs its checks in the claimed order,
short-circuiting on the first failure, with each outcome characterized by its
guard; and bytes 7 and 8 are never validated — overwriting them cannot change
which outcome (success or which error) the parse takes. -/
theorem claim6_elf_ident_check_order (file : List Nat) :
    (ElfIdent.parse anyClassParse anyEncodingParse file =
        .error .fileTooSmall ↔ file.length < 16)
    ∧ (ElfIdent.parse anyClassParse anyEncodingParse file =
        .error .invalidMagicBytes
      ↔ 16 ≤ file.length ∧ file.take 4 ≠ MAGIC_BYTES)
    ∧ (∀ b, ElfIdent.parse anyClassParse anyEncodingParse file =
        .error (.unsupportedClassError ⟨b⟩)
      ↔ 16 ≤ file.length ∧ file.take 4 = MAGIC_BYTES
        ∧ file.getD 4 0 = b ∧ b ≠ 1 ∧ b ≠ 2)
    ∧ (∀ b, ElfIdent.parse anyClassParse anyEncodingParse file =
        .error (.unsupportedEncodingError ⟨b⟩)
      ↔ 16 ≤ file.length ∧ file.take 4 = MAGIC_BYTES
        ∧ (file.getD 4 0 = 1 ∨ file.getD 4 0 = 2)
        ∧ file.getD 5 0 = b ∧ b ≠ 1 ∧ b ≠ 2)
    ∧ (ElfIdent.parse anyClassParse anyEncodingParse file =
        .error .unsupportedElfHeaderVersion
      ↔ 16 ≤ file.length ∧ file.take 4 = MAGIC_BYTES
        ∧ (file.getD 4 0 = 1 ∨ file.getD 4 0 = 2)
        ∧ (file.getD 5 0 = 1 ∨ file.getD 5 0 = 2)
        ∧ file.getD 6 0 ≠ 1)
    ∧ (ElfIdent.parse anyClassParse anyEncodingParse file =
        .error .nonZeroPadding
      ↔ 16 ≤ file.length ∧ file.take 4 = MAGIC_BYTES
        ∧ (file.getD 4 0 = 1 ∨ file.getD 4 0 = 2)
        ∧ (file.getD 5 0 = 1 ∨ file.getD 5 0 = 2)
        ∧ file.getD 6 0 = 1
        ∧ ∃ k, 9 ≤ k ∧ k < 16 ∧ file.getD k 0 ≠ 0)
    ∧ ((∃ id, ElfIdent.parse anyClassParse anyEncodingParse file = .ok id)
      ↔ 16 ≤ file.length ∧ file.take 4 = MAGIC_BYTES
        ∧ (file.getD 4 0 = 1 ∨ file.getD 4 0 = 2)
        ∧ (file.getD 5 0 = 1 ∨ file.getD 5 0 = 2)
        ∧ file.getD 6 0 = 1
        ∧ ∀ k, 9 ≤ k → k < 16 → file.getD k 0 = 0)
    ∧ (∀ x y, exceptErr (ElfIdent.parse anyClassParse anyEncodingParse
        ((file.set 7 x).set 8 y)) =
      exceptErr (ElfIdent.parse anyClassParse anyEncodingParse file)) := by
  obtain ⟨c1, c2, c3, c4, c5, c6, c7⟩ := elfIdent_parse_characterization file
  refine ⟨c1, c2, c3, c4, c5, c6, c7, ?_⟩
  intro x y
  obtain ⟨d1, d2, d3, d4, d5, d6, d7⟩ :=
    elfIdent_parse_characterization ((file.set 7 x).set 8 y)
  have hlen : ((file.set 7 x).set 8 y).length = file.length := by
    simp [List.length_set]
  have htake := set78_take4 file x y
  have hg4 := set78_getD file x y 4 (by omega) (by omega)
  have hg5 := set78_getD file x y 5 (by omega) (by omega)
  have hg6 := set78_getD file x y 6 (by omega) (by omega)
  cases hp : ElfIdent.parse anyClassParse anyEncodingParse file with
  | ok id =>
    obtain ⟨q1, q2, q3, q4, q5, q6⟩ := c7.mp ⟨id, hp⟩
    obtain ⟨id2, hp2⟩ := d7.mpr ⟨by omega, by rw [htake]; exact q2,
      by rw [hg4]; exact q3, by rw [hg5]; exact q4, by rw [hg6]; exact q5,
      fun k hk9 hk16 => by
        rw [set78_getD file x y k (by omega) (by omega)]
        exact q6 k hk9 hk16⟩
    rw [hp2]
    rfl
  | error err =>
    cases err with
    | fileTooSmall =>
      have q := c1.mp hp
      rw [d1.mpr (by omega)]
    | invalidMagicBytes =>
      obtain ⟨q1, q2⟩ := c2.mp hp
      rw [d2.mpr ⟨by omega, by rw [htake]; exact q2⟩]
    | unsupportedClassError u =>
      obtain ⟨b⟩ := u
      obtain ⟨q1, q2, q3, q4, q5⟩ := (c3 b).mp hp
      rw [(d3 b).mpr ⟨by omega, by rw [htake]; exact q2,
        by rw [hg4]; exact q3, q4, q5⟩]
    | unsupportedEncodingError u =>
      obtain ⟨b⟩ := u
      obtain ⟨q1, q2, q3, q4, q5, q6⟩ := (c4 b).mp hp
      rw [(d4 b).mpr ⟨by omega, by rw [htake]; exact q2,
        by rw [hg4]; exact q3, by rw [hg5]; exact q4, q5, q6⟩]
    | unsupportedElfHeaderVersion =>
      obtain ⟨q1, q2, q3, q4, q5⟩ := c5.mp hp
      rw [d5.mpr ⟨by omega, by rw [htake]; exact q2, by rw [hg4]; exact q3,
        by rw [hg5]; exact q4, by rw [hg6]; exact q5⟩]
    | nonZeroPadding =>
      obtain ⟨q1, q2, q3, q4, q5, k, hk9, hk16, hkne⟩ := c6.mp hp
      rw [d6.mpr ⟨by omega, by rw [htake]; exact q2, by rw [hg4]; exact q3,
        by rw [hg5]; exact q4, by rw [hg6]; exact q5,
        ⟨k, hk9, hk16, by
          rw [set78_getD file x y k (by omega) (by omega)]
          exact hkne⟩⟩]

/-- A class-64 program-header parse never reaches the `todo!()` panic. -/
theorem ElfProgramHeader.parse_class64_ne_panic {C E : Type} (cp : ClassParse C)
    (ep : EncodingParse E) (slice : List Nat) (c : C) (e : E)
    (hc : cp.into_class c = Class.class64) :
    ElfProgramHeader.parse cp ep slice c e ≠ .panic := by
  unfold ElfProgramHeader.parse
  rw [hc]
  dsimp only
  split_ifs <;> simp

/-- The entry loop reports `(i, err)` exactly when entry `i` lies in the
scanned range, fails with `err`, and every earlier scanned entry succeeds. -/
theorem checkEntries_error_iff {C E : Type} (cp : ClassParse C)
    (ep : EncodingParse E) (slice : List Nat) (entry_size : Nat) (c : C)
    (e : E) (hc : cp.into_class c = Class.class64) (n start i : Nat)
    (err : ParseElfProgramHeaderError) :
    ElfProgramHeaderTable.checkEntries cp ep slice entry_size c e start n =
        .error (.parseElfProgramHeaderError i err)
      ↔ start ≤ i ∧ i < start + n
        ∧ ElfProgramHeader.parse cp ep (slice.drop (i * entry_size)) c e =
          .error err
        ∧ ∀ j, start ≤ j → j < i →
          (ElfProgramHeader.parse cp ep (slice.drop (j * entry_size)) c
            e).isOk = true := by
  induction n generalizing start with
  | zero =>
    unfold ElfProgramHeaderTable.checkEntries
    constructor
    · intro h
      exact absurd h (by simp)
    · intro h
      omega
  | succ n ih =>
    unfold ElfProgramHeaderTable.checkEntries
    cases hp : ElfProgramHeader.parse cp ep (slice.drop (start * entry_size))
        c e with
    | panic =>
      exact absurd hp
        (ElfProgramHeader.parse_class64_ne_panic cp ep
          (slice.drop (start * entry_size)) c e hc)
    | error e0 =>
      dsimp only
      constructor
      · intro h
        have hie : i = start ∧ e0 = err := by
          have := h
          simp only [PResult.error.injEq,
            ParseElfProgramHeaderTableError.parseElfProgramHeaderError.injEq]
            at this
          exact ⟨this.1.symm, this.2⟩
        obtain ⟨hi, he⟩ := hie
        subst hi
        subst he
        exact ⟨le_refl i, by omega, hp, fun j hj1 hj2 => absurd hj1 (by omega)⟩
      · rintro ⟨h1, h2, h3, h4⟩
        have hi : i = start := by
          by_contra hne
          have hstart : (ElfProgramHeader.parse cp ep
              (slice.drop (start * entry_size)) c e).isOk = true :=
            h4 start (le_refl start) (by omega)
          rw [hp] at hstart
          exact absurd hstart (by simp [PResult.isOk])
        subst hi
        rw [hp] at h3
        have he : e0 = err := by
          simpa using h3
        rw [he]
    | ok a =>
      dsimp only
      rw [ih (start + 1)]
      constructor
      · rintro ⟨h1, h2, h3, h4⟩
        refine ⟨by omega, by omega, h3, fun j hj1 hj2 => ?_⟩
        by_cases hj : j = start
        · subst hj
          rw [hp]
          rfl
        · exact h4 j (by omega) hj2
      · rintro ⟨h1, h2, h3, h4⟩
        have hi : start ≠ i := by
          intro hcontra
          subst hcontra
          rw [hp] at h3
          exact absurd h3 (by simp)
        refine ⟨by omega, by omega, h3, fun j hj1 hj2 => h4 j (by omega) hj2⟩

/-- C7: `ElfProgramHeaderTable::parse` reports `(i, err)` exactly when the
table extent passes the overflow and length checks, entry `i` is in range and
fails with `err`, and every entry before `i` parses successfully — so the
reported index is the first failing one, and entries after it cannot affect
the result. -/
theorem claim7_table_reports_first_failure (slice : List Nat)
    (entry_count entry_size : Nat) (e : Encoding) (i : Nat)
    (err : ParseElfProgramHeaderError) :
    ElfProgramHeaderTable.parse anyClassParse anyEncodingParse slice
        entry_count entry_size Class.class64 e =
        .error (.parseElfProgramHeaderError i err)
      ↔ entry_count * entry_size < 2 ^ 64
        ∧ entry_count * entry_size ≤ slice.length
        ∧ i < entry_count
        ∧ ElfProgramHeader.parse anyClassParse anyEncodingParse
            (slice.drop (i * entry_size)) Class.class64 e = .error err
        ∧ ∀ j < i,
          (ElfProgramHeader.parse anyClassParse anyEncodingParse
            (slice.drop (j * entry_size)) Class.class64 e).isOk = true := by
  have hc : anyClassParse.into_class Class.class64 = Class.class64 := rfl
  unfold ElfProgramHeaderTable.parse
  by_cases hmul : entry_count * entry_size < 2 ^ 64
  · have hm : checked_mul_usize entry_count entry_size =
        some (entry_count * entry_size) := by
      unfold checked_mul_usize
      rw [if_pos hmul]
    rw [hm]
    dsimp only
    by_cases hlen : slice.length < entry_count * entry_size
    · rw [if_pos hlen]
      constructor
      · intro h
        exact absurd h (by simp)
      · intro h
        omega
    · rw [if_neg hlen]
      cases hck : ElfProgramHeaderTable.checkEntries anyClassParse
          anyEncodingParse slice entry_size Class.class64 e 0
          entry_count with
      | panic =>
        dsimp only
        constructor
        · intro h
          exact absurd h (by simp)
        · rintro ⟨h1, h2, h3, h4, h5⟩
          have hcontr := (checkEntries_error_iff anyClassParse
              anyEncodingParse slice entry_size Class.class64 e hc
              entry_count 0 i err).mpr
            ⟨by omega, by omega, h4, fun j hj1 hj2 => h5 j hj2⟩
          rw [hck] at hcontr
          exact absurd hcontr (by simp)
      | error e0 =>
        dsimp only
        have := checkEntries_error_iff anyClassParse anyEncodingParse slice
          entry_size Class.class64 e hc entry_count 0 i err
        constructor
        · intro h
          have heq : e0 = ParseElfProgramHeaderTableError.parseElfProgramHeaderError i err := by
            simpa using h
          rw [heq] at hck
          obtain ⟨h1, h2, h3, h4⟩ := this.mp hck
          exact ⟨hmul, by omega, by omega, h3, fun j hj => h4 j (by omega) hj⟩
        · rintro ⟨h1, h2, h3, h4, h5⟩
          have : ElfProgramHeaderTable.checkEntries anyClassParse
              anyEncodingParse slice entry_size Class.class64 e 0
              entry_count = .error (.parseElfProgramHeaderError i err) :=
            this.mpr ⟨by omega, by omega, h4, fun j hj1 hj2 => h5 j hj2⟩
          rw [hck] at this
          have heq : e0 = ParseElfProgramHeaderTableError.parseElfProgramHeaderError i err := by
            simpa using this
          rw [heq]
      | ok a =>
        dsimp only
        constructor
        · intro h
          exact absurd h (by simp)
        · rintro ⟨h1, h2, h3, h4, h5⟩
          have hcontr := (checkEntries_error_iff anyClassParse
              anyEncodingParse slice entry_size Class.class64 e hc
              entry_count 0 i err).mpr
            ⟨by omega, by omega, h4, fun j hj1 hj2 => h5 j hj2⟩
          rw [hck] at hcontr
          exact absurd hcontr (by simp)
  · have hm : checked_mul_usize entry_count entry_size = none := by
      unfold checked_mul_usize
      rw [if_neg hmul]
    rw [hm]
    constructor
    · intro h
      exact absurd h (by simp)
    · intro h
      exact absurd h.1 hmul

/-- C10: multiplication overflow in `ElfProgramHeaderTable::parse` is mapped
by `ok_or` onto the same `SliceTooSmall` error that a genuinely short slice
produces, so the two conditions are indistinguishable to the caller. -/
theorem claim10_overflow_collapses_to_slice_too_small (slice : List Nat)
    (entry_count entry_size : Nat) (e : Encoding) :
    (2 ^ 64 ≤ entry_count * entry_size →
      ElfProgramHeaderTable.parse anyClassParse anyEncodingParse slice
        entry_count entry_size Class.class64 e = .error .sliceTooSmall)
    ∧ (entry_count * entry_size < 2 ^ 64 →
      slice.length < entry_count * entry_size →
      ElfProgramHeaderTable.parse anyClassParse anyEncodingParse slice
        entry_count entry_size Class.class64 e = .error .sliceTooSmall) := by
  constructor
  · intro h
    have hm : checked_mul_usize entry_count entry_size = none := by
      unfold checked_mul_usize
      rw [if_neg (by omega)]
    unfold ElfProgramHeaderTable.parse
    rw [hm]
  · intro h hlen
    have hm : checked_mul_usize entry_count entry_size =
        some (entry_count * entry_size) := by
      unfold checked_mul_usize
      rw [if_pos h]
    unfold ElfProgramHeaderTable.parse
    rw [hm]
    simp [hlen]

/-- Witness for C10 at concrete inputs: `2 ^ 32 × 2 ^ 32` overflows the
64-bit address type and an empty slice is genuinely too short for one
56-byte entry; both yield the same `SliceTooSmall`. -/
theorem claim10_witness :
    ElfProgramHeaderTable.parse anyClassParse anyEncodingParse [] (2 ^ 32)
      (2 ^ 32) Class.class64 Encoding.twosComplementLittleEndian =
      .error .sliceTooSmall
    ∧ ElfProgramHeaderTable.parse anyClassParse anyEncodingParse [] 1 56
      Class.class64 Encoding.twosComplementLittleEndian =
      .error .sliceTooSmall :=
  ⟨(claim10_overflow_collapses_to_slice_too_small [] (2 ^ 32) (2 ^ 32)
      Encoding.twosComplementLittleEndian).1 (by norm_num),
    (claim10_overflow_collapses_to_slice_too_small [] 1 56
      Encoding.twosComplementLittleEndian).2 (by norm_num) (by decide)⟩

end CaporaElf
